import Mathlib

/-!
Verification development for the BookBot repository.

This file gives a shallow embedding of the two stateful components the
specification talks about:

* `database.py` (class `DatabaseManager`): a SQLite-backed store of books,
  book contents and per-user reading progress.  The store state is embedded
  as explicit lists of rows; each Python method becomes a Lean function on
  `DBState`.  Two execution facts of the source are reflected faithfully:
  -- Python's `sqlite3` module leaves `PRAGMA foreign_keys` OFF and the code
     never enables it, so the `ON DELETE CASCADE` clauses declared in
     `init_database` are not enforced: `delete_book` removes only the
     `books` row.
  -- Python slicing `content[start:end]` is character based; it is embedded
     as drop/take on the character list of the string.
  -- Python's `int((end_idx / content_length) * 100)` evaluates `/` and `*`
     in IEEE binary64 arithmetic and then truncates toward zero.  This is
     embedded exactly with integer arithmetic: `fp64OfFrac` rounds a
     positive fraction to the nearest representable binary64 value (round
     to nearest, ties to even, with the subnormal range below 2^(-1022)),
     and `pyPercentage` composes the correctly rounded division, the
     rounded product with 100, and the truncation.  The double result can
     differ from exact arithmetic: for `end = 29`, `L = 100` the doubles
     give `(29/100)*100 = 28.999999999999996` and the stored percentage is
     28, not 29.

* `models.py` (class `User`): an in-memory nested dictionary
  `{user_id: {book_id: {'status': .., 'rating': ..}}}`, embedded as an
  association list of association lists with Python-dict update semantics
  (updating an existing key keeps its position, a new key is appended).
-/

/-- Character-based slice `s[a:b]` of a Python string (for `0 ≤ a ≤ b`). -/
def strSlice (s : String) (a b : Nat) : String :=
  String.mk ((s.data.drop a).take (b - a))

/-! ### Exact model of IEEE binary64 (Python float) arithmetic

Python floats are IEEE 754 binary64 values; every finite binary64 value is
a dyadic rational `m · 2^g`, so binary64 arithmetic is modelled exactly
with integers: each operation computes the exact rational result and
rounds it to the nearest representable value (round to nearest, ties to
even).  A positive value with `2^e ≤ q < 2^(e+1)` lies, for `e ≥ -1022`
(the normal range), on the grid of spacing `2^(e-52)`; below `2^(-1022)`
the subnormal grid has spacing `2^(-1074)` and underflow rounds to 0.
Overflow past `2^1024` is not modelled — every float value reached in
this file stays below 101. -/

/-- The bit length of `n` (0 for 0): structural recursion on a fuel that
only needs `n < 2^fuel`, so `bitLen n n` is always the bit length. -/
def bitLen : Nat → Nat → Nat
  | 0, _ => 0
  | fuel + 1, n => if n = 0 then 0 else bitLen fuel (n / 2) + 1

/-- `⌊log₂ (a/b)⌋` for a positive fraction (`a, b ≥ 1`): the exponent `e`
with `2^e ≤ a/b < 2^(e+1)`, from the bit-length difference with a
one-step correction. -/
def fracFloorLog2 (a b : Nat) : ℤ :=
  let d : ℤ := (bitLen a a : ℤ) - (bitLen b b : ℤ)
  if 0 ≤ d then (if a < b * 2 ^ d.toNat then d - 1 else d)
  else (if a * 2 ^ (-d).toNat < b then d - 1 else d)

/-- Round the fraction `p/q` (`q ≥ 1`) to the nearest integer, ties to the
even neighbour. -/
def roundHalfEvenFrac (p q : Nat) : Nat :=
  let n := p / q
  let r := p % q
  if 2 * r < q then n
  else if q < 2 * r then n + 1
  else if n % 2 = 0 then n else n + 1

/-- Round the positive fraction `a/b` to the nearest IEEE binary64 value,
returned as a dyadic pair `(m, g)` with value `m · 2^g`. -/
def fp64OfFrac (a b : Nat) : Nat × ℤ :=
  let e := fracFloorLog2 a b
  let g : ℤ := if -1022 ≤ e then e - 52 else -1074
  let m := if 0 ≤ g then roundHalfEvenFrac a (b * 2 ^ g.toNat)
           else roundHalfEvenFrac (a * 2 ^ (-g).toNat) b
  (m, g)

/-- `⌊m · 2^g⌋` of a non-negative dyadic value. -/
def dyadicFloor (m : Nat) (g : ℤ) : Nat :=
  if 0 ≤ g then m * 2 ^ g.toNat else m / 2 ^ (-g).toNat

/-- Python's `int((endChar / totalChars) * 100)` from `get_book_page`,
with both float operations evaluated in binary64: `x := endChar /
totalChars` is the correctly rounded double of the exact quotient (CPython
rounds int/int true division correctly), `y := x * 100` is the rounded
double product (100 converts to a double exactly), and `int(y)` truncates
toward zero — `y` is non-negative here, so truncation is the floor.
`get_book_page` only evaluates this with `1 ≤ endChar ≤ totalChars`. -/
def pyPercentage (endChar totalChars : Nat) : Nat :=
  let x := fp64OfFrac endChar totalChars
  let y := if 0 ≤ x.2 then fp64OfFrac (x.1 * 100 * 2 ^ x.2.toNat) 1
           else fp64OfFrac (x.1 * 100) (2 ^ (-x.2).toNat)
  dyadicFloor y.1 y.2

/-- A row of the `books` table: `id, title, author, genre`
(`created_at` is a timestamp and is not modelled). -/
structure BookRow where
  id : Nat
  title : String
  author : String
  genre : String
  deriving Repr, DecidableEq

/-- A row of the `book_contents` table: `book_id, content, content_length, pages`. -/
structure ContentRow where
  book_id : Nat
  content : String
  content_length : Nat
  pages : Nat
  deriving Repr, DecidableEq

/-- A row of the `reading_progress` table: `user_id, book_id, current_page`
(`last_read` is a timestamp and is not modelled). -/
structure ProgressRow where
  user_id : Nat
  book_id : Nat
  current_page : Nat
  deriving Repr, DecidableEq

/-- The persistent state managed by `DatabaseManager`; `nextId` is the
`AUTOINCREMENT` counter of the `books` table. -/
structure DBState where
  books : List BookRow
  contents : List ContentRow
  progress : List ProgressRow
  nextId : Nat
  deriving Repr, DecidableEq

/-- A fresh database produced by `init_database`: empty tables, ids from 1. -/
def emptyDB : DBState := ⟨[], [], [], 1⟩

namespace DatabaseManager

/-- `book_exists(title, author)`: `SELECT id FROM books WHERE title = ? AND author = ?`
(SQLite `TEXT` comparison with the default BINARY collation, i.e. exact,
case-sensitive string equality). -/
def book_exists (db : DBState) (title author : String) : Bool :=
  db.books.any (fun b => b.title = title && b.author = author)

/-- `add_book(title, author, genre)`: `INSERT INTO books ...`; the
`UNIQUE(title, author)` constraint makes the insert raise
`sqlite3.IntegrityError` when the pair is already present, which the method
turns into an `Exception` (the connection closes without committing, so no
row is added). On success it returns `cursor.lastrowid`. -/
def add_book (db : DBState) (title author genre : String) :
    Except String (Nat × DBState) :=
  if book_exists db title author then
    .error "book already exists"
  else
    .ok (db.nextId,
      { db with
        books := db.books ++ [⟨db.nextId, title, author, genre⟩]
        nextId := db.nextId + 1 })

/-- `add_book_with_content(title, author, genre, content)`: checks
`book_exists`, inserts the `books` row, computes
`pages = max(1, (len(content) + 1499) // 1500)` and inserts the
`book_contents` row; on the duplicate branch it raises and rolls back. -/
def add_book_with_content (db : DBState) (title author genre content : String) :
    Except String (Nat × DBState) :=
  if book_exists db title author then
    .error "book already exists"
  else
    let book_id := db.nextId
    let content_length := content.length
    let pages := max 1 ((content_length + 1499) / 1500)
    .ok (book_id,
      { db with
        books := db.books ++ [⟨book_id, title, author, genre⟩]
        contents := db.contents ++ [⟨book_id, content, content_length, pages⟩]
        nextId := book_id + 1 })

/-- `delete_book(book_id)`: `DELETE FROM books WHERE id = ?` and report
whether a row was removed.  The schema declares `ON DELETE CASCADE` on
`book_contents` and `reading_progress`, but the code never issues
`PRAGMA foreign_keys = ON`, and Python's `sqlite3` leaves foreign-key
enforcement off by default, so those tables are untouched here. -/
def delete_book (db : DBState) (book_id : Nat) : Bool × DBState :=
  (db.books.any (fun b => b.id = book_id),
   { db with books := db.books.filter (fun b => b.id ≠ book_id) })

/-- The record produced by `get_book` (the fields `get_book_page` uses,
plus the content summary columns). -/
structure BookInfo where
  id : Nat
  title : String
  author : String
  genre : String
  has_content : Bool
  content_length : Nat
  pages : Nat
  deriving Repr, DecidableEq

/-- `get_book(book_id)`: `SELECT ... FROM books b LEFT JOIN book_contents bc
ON b.id = bc.book_id WHERE b.id = ?`; `None` when the book row is missing,
with `content_length`/`pages` defaulting to 0 when there is no content row. -/
def get_book (db : DBState) (book_id : Nat) : Option BookInfo :=
  match db.books.find? (fun b => b.id = book_id) with
  | none => none
  | some b =>
    match db.contents.find? (fun r => r.book_id = book_id) with
    | none => some ⟨b.id, b.title, b.author, b.genre, false, 0, 0⟩
    | some r => some ⟨b.id, b.title, b.author, b.genre, true, r.content_length, r.pages⟩

/-- `get_book_content(book_id)`: `SELECT content FROM book_contents WHERE
book_id = ?`, `None` when there is no row. -/
def get_book_content (db : DBState) (book_id : Nat) : Option String :=
  (db.contents.find? (fun r => r.book_id = book_id)).map (fun r => r.content)

/-- The dictionary returned by `get_book_page` (the `progress` display
string is a formatting of `start_char`, `end_char`, `total_chars` and is
not modelled separately). -/
structure PageResult where
  book_id : Nat
  title : String
  author : String
  page : Nat
  total_pages : Nat
  content : String
  start_char : Nat
  end_char : Nat
  total_chars : Nat
  percentage : Nat
  deriving Repr, DecidableEq

/-- `get_book_page(book_id, page, page_size)`: fetches the content
(`if not content: return None` — in Python an empty string is falsy, so a
book with empty content is also `None`), fetches the book info, computes
`total_pages = max(1, (L + page_size - 1) // page_size)`, clamps the page
into `[1, total_pages]`, slices `content[start_idx:end_idx]` and returns the
page dictionary with `percentage = int((end_idx / L) * 100)`, both float
operations evaluated in binary64 (`pyPercentage`). -/
def get_book_page (db : DBState) (book_id : Nat) (page : Int) (page_size : Nat) :
    Option PageResult :=
  match get_book_content db book_id with
  | none => none
  | some content =>
    if content.length = 0 then none
    else
      match get_book db book_id with
      | none => none
      | some info =>
        let content_length := content.length
        let total_pages := max 1 ((content_length + page_size - 1) / page_size)
        let p : Nat :=
          if page < 1 then 1
          else if page > (total_pages : Int) then total_pages
          else page.toNat
        let start_idx := (p - 1) * page_size
        let end_idx := min (start_idx + page_size) content_length
        some
          { book_id := book_id
            title := info.title
            author := info.author
            page := p
            total_pages := total_pages
            content := strSlice content start_idx end_idx
            start_char := start_idx + 1
            end_char := end_idx
            total_chars := content_length
            percentage := pyPercentage end_idx content_length }

/-- `save_reading_progress(user_id, book_id, current_page)`:
`INSERT OR REPLACE INTO reading_progress ...` with `UNIQUE(user_id, book_id)`
— SQLite deletes every row conflicting on the key and inserts the new row;
returns `True`. -/
def save_reading_progress (db : DBState) (user_id book_id current_page : Nat) :
    Bool × DBState :=
  (true,
   { db with
     progress :=
       db.progress.filter (fun r => ¬ (r.user_id = user_id ∧ r.book_id = book_id))
         ++ [⟨user_id, book_id, current_page⟩] })

/-- `get_reading_progress(user_id, book_id)`: `SELECT current_page FROM
reading_progress WHERE user_id = ? AND book_id = ?`, `0` when there is no
row. -/
def get_reading_progress (db : DBState) (user_id book_id : Nat) : Nat :=
  match db.progress.find? (fun r => r.user_id = user_id ∧ r.book_id = book_id) with
  | some r => r.current_page
  | none => 0

end DatabaseManager

/-- One value of the inner dictionary of `User.user`:
`{'status': str, 'rating': int|None}`. -/
structure BookEntry where
  status : String
  rating : Option Int
  deriving Repr, DecidableEq

/-- Python-dict association list: unique keys, insertion ordered. -/
abbrev PyDict (α : Type) := List (Nat × α)

/-- `k in d` / `d[k]` lookup of a Python dict. -/
def alookup {α : Type} (l : PyDict α) (k : Nat) : Option α :=
  (l.find? (fun p => p.1 = k)).map (fun p => p.2)

/-- `d[k] = v` of a Python dict: updating an existing key keeps its
position, a new key is appended at the end. -/
def aset {α : Type} (l : PyDict α) (k : Nat) (v : α) : PyDict α :=
  if l.any (fun p => p.1 = k) then
    l.map (fun p => if p.1 = k then (k, v) else p)
  else
    l ++ [(k, v)]

/-- `del d[k]` of a Python dict. -/
def adel {α : Type} (l : PyDict α) (k : Nat) : PyDict α :=
  l.filter (fun p => p.1 ≠ k)

/-- The state of a `models.User` object: the nested dictionary
`{user_id: {book_id: BookEntry}}`.  A fresh `User()` is `[]`. -/
abbrev UserState := PyDict (PyDict BookEntry)

namespace User

/-- The `allowed_status` list checked by `add_book` and `get_new_status`. -/
def allowed_status : List String := ["planned", "reading", "completed", "dropped"]

/-- `User.add_book(user_id, book_id, status)`.  An invalid status raises
`ValueError`, which the method's own `except Exception` catches, printing
and returning `False` (the state is untouched: the status check precedes
every write).  Otherwise an empty inner dict is created for a missing user,
a present book returns `False`, and a fresh book is stored with
`rating = None` returning `True`. -/
def add_book (st : UserState) (user_id book_id : Nat) (status : String) :
    Bool × UserState :=
  if ¬ allowed_status.contains status then
    (false, st)
  else
    let st1 := if (alookup st user_id).isSome then st else aset st user_id []
    let ub := (alookup st1 user_id).getD []
    if (alookup ub book_id).isSome then
      (false, st1)
    else
      (true, aset st1 user_id (aset ub book_id ⟨status, none⟩))

/-- `User.rate_book(user_id, book_id, rating)`.  A rating outside `[1, 5]`
raises `ValueError`, which the surrounding `except Exception` catches: the
method prints the error and returns `False` — the exception never reaches
the caller and the state is unchanged.  A missing user or book returns
`False`; otherwise the rating is stored and `True` returned. -/
def rate_book (st : UserState) (user_id book_id : Nat) (rating : Int) :
    Bool × UserState :=
  if rating < 1 ∨ rating > 5 then
    (false, st)
  else
    match alookup st user_id with
    | none => (false, st)
    | some ub =>
      match alookup ub book_id with
      | none => (false, st)
      | some e =>
        (true, aset st user_id (aset ub book_id { e with rating := some rating }))

/-- `User.get_new_status(user_id, book_id, new_status)`: invalid status is
caught like in `add_book`; missing user or book returns `False`; otherwise
the status field is overwritten. -/
def get_new_status (st : UserState) (user_id book_id : Nat) (new_status : String) :
    Bool × UserState :=
  if ¬ allowed_status.contains new_status then
    (false, st)
  else
    match alookup st user_id with
    | none => (false, st)
    | some ub =>
      match alookup ub book_id with
      | none => (false, st)
      | some e =>
        (true, aset st user_id (aset ub book_id { e with status := new_status }))

/-- `User.remove_book(user_id, book_id)`: deletes the book entry and, when
the user's inner dict becomes empty (`len(...) == 0`), deletes the user's
entry as well. -/
def remove_book (st : UserState) (user_id book_id : Nat) : Bool × UserState :=
  match alookup st user_id with
  | none => (false, st)
  | some ub =>
    if (alookup ub book_id).isNone then
      (false, st)
    else
      let ub2 := adel ub book_id
      if ub2.length = 0 then
        (true, adel st user_id)
      else
        (true, aset st user_id ub2)

/-- `User.clear_user_books(user_id)`: deletes the user's whole entry when
present. -/
def clear_user_books (st : UserState) (user_id : Nat) : Bool × UserState :=
  if (alookup st user_id).isSome then
    (true, adel st user_id)
  else
    (false, st)

end User

/-- One call against a `User` object, for stating reachability invariants. -/
inductive UserOp where
  | addBook (user_id book_id : Nat) (status : String)
  | rateBook (user_id book_id : Nat) (rating : Int)
  | newStatus (user_id book_id : Nat) (status : String)
  | removeBook (user_id book_id : Nat)
  | clearBooks (user_id : Nat)
  deriving Repr

/-- Apply one `UserOp`, keeping only the state. -/
def applyUserOp (st : UserState) : UserOp → UserState
  | .addBook u b s => (User.add_book st u b s).2
  | .rateBook u b r => (User.rate_book st u b r).2
  | .newStatus u b s => (User.get_new_status st u b s).2
  | .removeBook u b => (User.remove_book st u b).2
  | .clearBooks u => (User.clear_user_books st u).2

/-- The state reached from a fresh `User()` by a call sequence. -/
def runUserOps (ops : List UserOp) : UserState :=
  ops.foldl applyUserOp []

/-! ### Helper lemmas about the progress table -/

theorem filter_not_filter_eq_nil {α : Type} (p : α → Bool) (l : List α) :
    (l.filter (fun a => ! p a)).filter p = [] := by
  induction l with
  | nil => rfl
  | cons a t ih => cases h : p a <;> simp [List.filter_cons, h, ih]

theorem find?_filter_not_append {α : Type} (p : α → Bool) (l : List α) (x : α)
    (hx : p x = true) :
    ((l.filter (fun a => ! p a)) ++ [x]).find? p = some x := by
  induction l with
  | nil => simp [List.find?, hx]
  | cons a t ih => cases h : p a <;> simp [List.filter_cons, List.find?_cons, h, ih]

/-- One mutating call against a `DatabaseManager`, for stating invariants
over all reachable store states. -/
inductive DBOp where
  | addBook (title author genre : String)
  | addBookWithContent (title author genre content : String)
  | deleteBook (book_id : Nat)
  | saveProgress (user_id book_id page : Nat)
  deriving Repr

/-- Apply one `DBOp`, keeping only the state (a raised duplicate error
leaves the store unchanged: the connection closes without a commit). -/
def applyDBOp (db : DBState) : DBOp → DBState
  | .addBook t a g =>
    match DatabaseManager.add_book db t a g with
    | .ok (_, db') => db'
    | .error _ => db
  | .addBookWithContent t a g c =>
    match DatabaseManager.add_book_with_content db t a g c with
    | .ok (_, db') => db'
    | .error _ => db
  | .deleteBook b => (DatabaseManager.delete_book db b).2
  | .saveProgress u b p => (DatabaseManager.save_reading_progress db u b p).2

/-- The store state reached from a fresh database by a call sequence. -/
def runDBOps (ops : List DBOp) : DBState :=
  ops.foldl applyDBOp emptyDB

/-- At most one `reading_progress` row per `(user, book)` key. -/
def progressUnique (db : DBState) : Prop :=
  ∀ u b : Nat,
    ((db.progress.filter (fun r => r.user_id = u ∧ r.book_id = b)).length ≤ 1)

theorem saveProgress_key_count (db : DBState) (u b p u2 b2 : Nat)
    (h : ((db.progress.filter
      (fun r => r.user_id = u2 ∧ r.book_id = b2)).length ≤ 1)) :
    (((DatabaseManager.save_reading_progress db u b p).2.progress.filter
      (fun r => r.user_id = u2 ∧ r.book_id = b2)).length ≤ 1) := by
  unfold DatabaseManager.save_reading_progress
  simp only [decide_not]
  rw [List.filter_append, List.length_append]
  by_cases hkey : u2 = u ∧ b2 = b
  · obtain ⟨rfl, rfl⟩ := hkey
    rw [filter_not_filter_eq_nil]
    simp
  · have hrowf : List.filter (fun r => decide (r.user_id = u2 ∧ r.book_id = b2))
        [(⟨u, b, p⟩ : ProgressRow)] = [] := by
      simp only [List.filter_cons, List.filter_nil]
      rw [if_neg]
      simp only [decide_eq_true_eq]
      rintro ⟨h1, h2⟩
      exact hkey ⟨h1.symm, h2.symm⟩
    rw [hrowf]
    simp only [List.length_nil, Nat.add_zero]
    rw [List.filter_comm]
    calc (List.filter (fun a => !decide (a.user_id = u ∧ a.book_id = b))
            (List.filter (fun r => decide (r.user_id = u2 ∧ r.book_id = b2))
              db.progress)).length
        ≤ (List.filter (fun r => decide (r.user_id = u2 ∧ r.book_id = b2))
            db.progress).length := List.length_filter_le _ _
      _ ≤ 1 := h

theorem progressUnique_applyDBOp (db : DBState) (op : DBOp)
    (h : progressUnique db) : progressUnique (applyDBOp db op) := by
  cases op with
  | addBook t a g =>
    simp only [applyDBOp]
    unfold DatabaseManager.add_book
    by_cases hex : DatabaseManager.book_exists db t a = true
    · rw [if_pos hex]
      exact h
    · rw [if_neg hex]
      exact h
  | addBookWithContent t a g c =>
    simp only [applyDBOp]
    unfold DatabaseManager.add_book_with_content
    by_cases hex : DatabaseManager.book_exists db t a = true
    · rw [if_pos hex]
      exact h
    · rw [if_neg hex]
      exact h
  | deleteBook b0 => exact h
  | saveProgress u0 b0 p0 =>
    intro u b
    exact saveProgress_key_count db u0 b0 p0 u b (h u b)

theorem progressUnique_runDBOps (ops : List DBOp) :
    progressUnique (runDBOps ops) := by
  suffices h : ∀ db, progressUnique db → progressUnique (ops.foldl applyDBOp db) by
    refine h emptyDB ?_
    intro u b
    simp [emptyDB]
  induction ops with
  | nil => exact fun db h => h
  | cons op t ih => exact fun db h => ih _ (progressUnique_applyDBOp db op h)

/-- C6: `save_reading_progress` is an idempotent upsert: a second identical
call leaves the store state unchanged, both calls return `True`,
`get_reading_progress` returns the saved page afterwards, after a save
exactly one `reading_progress` row exists for the saved `(user, book)`
key, and in every store state reachable from a fresh database by any call
sequence at most one row exists per `(user, book)` pair. -/
theorem C6_save_progress_idempotent_upsert (db : DBState) (u b p : Nat) :
    DatabaseManager.save_reading_progress
        (DatabaseManager.save_reading_progress db u b p).2 u b p
      = DatabaseManager.save_reading_progress db u b p
    ∧ (DatabaseManager.save_reading_progress db u b p).1 = true
    ∧ DatabaseManager.get_reading_progress
        (DatabaseManager.save_reading_progress db u b p).2 u b = p
    ∧ ((DatabaseManager.save_reading_progress db u b p).2.progress.filter
        (fun r => r.user_id = u ∧ r.book_id = b)).length = 1
    ∧ (∀ ops : List DBOp, ∀ u2 b2 : Nat,
        (((runDBOps ops).progress.filter
          (fun r => r.user_id = u2 ∧ r.book_id = b2)).length ≤ 1)) := by
  refine ⟨?_, rfl, ?_, ?_, fun ops u2 b2 => progressUnique_runDBOps ops u2 b2⟩
  · unfold DatabaseManager.save_reading_progress
    simp [List.filter_append, List.filter_filter]
  · unfold DatabaseManager.save_reading_progress DatabaseManager.get_reading_progress
    simp only [decide_not]
    rw [find?_filter_not_append]
    simp
  · unfold DatabaseManager.save_reading_progress
    simp only [decide_not]
    rw [List.filter_append, filter_not_filter_eq_nil]
    simp

/-! ### C2: scenario exercising the (missing) deletion cascade -/

/-- The store after `add_book_with_content` of a 26-character book on a
fresh database (book id 1). -/
def c2_db1 : DBState :=
  match DatabaseManager.add_book_with_content emptyDB
      "Book" "Author" "Genre" "abcdefghijklmnopqrstuvwxyz" with
  | .ok (_, db) => db
  | .error _ => emptyDB

/-- ... then user 7 saves reading progress page 5 for book 1. -/
def c2_db2 : DBState := (DatabaseManager.save_reading_progress c2_db1 7 1 5).2

/-- ... then book 1 is deleted. -/
def c2_db3 : DBState := (DatabaseManager.delete_book c2_db2 1).2

/-- C2: the deletion cascade declared in the schema does not happen.
After `delete_book(1)` succeeds, `get_reading_progress(7, 1)` still returns
the saved page 5 (not the no-progress sentinel 0): the `reading_progress`
row survives because `PRAGMA foreign_keys` is never enabled.
(`get_book_page(1, 1, 1500)` does return `None`, but only because the
`books` row is gone — the orphaned `book_contents` row also survives.) -/
theorem C2_delete_cascade_missing :
    (DatabaseManager.delete_book c2_db2 1).1 = true
    ∧ DatabaseManager.get_reading_progress c2_db3 7 1 = 5
    ∧ DatabaseManager.get_reading_progress c2_db3 7 1 ≠ 0
    ∧ DatabaseManager.get_book_page c2_db3 1 1 1500 = none
    ∧ c2_db3.contents ≠ [] := by
  decide

/-! ### C9: rate_book swallows its own ValueError -/

/-- A `User` state where user 1 owns book 2 with status `"reading"`. -/
def c9_state : UserState := (User.add_book [] 1 2 "reading").2

/-- C9: for an out-of-range rating (0 or 6) `rate_book` does not surface
any error to its caller: the `ValueError` it raises is caught by its own
`except Exception` handler, which prints and returns plain `False`, and the
stored rating for (user 1, book 2) is unchanged (still `None`) — although
the method's docstring promises `Raises: ValueError`. -/
theorem C9_rate_book_swallows_validation_error :
    User.rate_book c9_state 1 2 0 = (false, c9_state)
    ∧ User.rate_book c9_state 1 2 6 = (false, c9_state)
    ∧ ((alookup c9_state 1).bind (fun ub => alookup ub 2))
        = some ⟨"reading", none⟩ := by
  decide

/-! ### C7: round-trip counterexample at empty content -/

/-- The store after adding a book whose content is the empty string (which
`add_book_with_content` accepts: it validates nothing about the content). -/
def c7_empty_db : DBState :=
  match DatabaseManager.add_book_with_content emptyDB "T" "A" "G" "" with
  | .ok (_, db) => db
  | .error _ => emptyDB

/-- C7 counterexample: the empty content string is accepted by
`add_book_with_content` (id 1 is returned), yet `get_book_page(1, 1, 1500)`
returns `None` instead of a page holding the length-`min(S, 0) = 0` prefix:
`if not content` treats the empty string like a missing book. -/
theorem C7_roundtrip_counterexample :
    DatabaseManager.add_book_with_content emptyDB "T" "A" "G" ""
      = .ok (1, c7_empty_db)
    ∧ DatabaseManager.get_book_page c7_empty_db 1 1 1500 = none :=
  ⟨rfl, rfl⟩

theorem find?_append_right {α : Type} (p : α → Bool) (l₁ l₂ : List α)
    (h : ∀ x ∈ l₁, p x = false) :
    (l₁ ++ l₂).find? p = l₂.find? p := by
  induction l₁ with
  | nil => rfl
  | cons a t ih =>
    have ha : p a = false := h a (List.mem_cons_self a t)
    simp only [List.cons_append, List.find?_cons, ha]
    exact ih (fun x hx => h x (List.mem_cons_of_mem a hx))

/-! ### C4: add_book_with_content performs no content validation -/

/-- The store after adding a 5-character content (below the threshold of 10
the specification claims is enforced). -/
def c4_db : DBState :=
  match DatabaseManager.add_book_with_content emptyDB "T4" "A4" "G4" "short" with
  | .ok (_, db) => db
  | .error _ => emptyDB

/-- C4 counterexample: content `"short"` has length 5 < 10, yet
`add_book_with_content` succeeds (returning id 1) and inserts both the
metadata row and the content row — there is no minimum-length check
anywhere in the method. -/
theorem C4_short_content_accepted :
    "short".length < 10
    ∧ DatabaseManager.add_book_with_content emptyDB "T4" "A4" "G4" "short"
        = .ok (1, c4_db)
    ∧ c4_db.books = [⟨1, "T4", "A4", "G4"⟩]
    ∧ c4_db.contents = [⟨1, "short", 5, 1⟩] :=
  ⟨by decide, rfl, by decide, by decide⟩

/-- C4 (amended): `add_book_with_content` validates nothing about the
content: for every content string — of any length, below or above 10 —
and a fresh (title, author) pair, it succeeds, returns the new id, and
inserts the metadata row plus the full text (retrievable afterwards). -/
theorem C4_no_content_validation (db : DBState)
    (title author genre content : String)
    (hdup : DatabaseManager.book_exists db title author = false)
    (hfresh : ∀ r ∈ db.contents, r.book_id ≠ db.nextId) :
    ∃ db', DatabaseManager.add_book_with_content db title author genre content
        = .ok (db.nextId, db')
      ∧ DatabaseManager.get_book_content db' db.nextId = some content
      ∧ DatabaseManager.book_exists db' title author = true
      ∧ db'.books.length = db.books.length + 1 := by
  refine ⟨{ db with
      books := db.books ++ [⟨db.nextId, title, author, genre⟩]
      contents := db.contents ++
        [⟨db.nextId, content, content.length, max 1 ((content.length + 1499) / 1500)⟩]
      nextId := db.nextId + 1 }, ?_, ?_, ?_, ?_⟩
  · unfold DatabaseManager.add_book_with_content
    simp [hdup]
  · unfold DatabaseManager.get_book_content
    rw [find?_append_right]
    · simp
    · intro r hr
      simpa using hfresh r hr
  · unfold DatabaseManager.book_exists
    simp
  · simp

/-- Witness for C4: on a fresh store, the 4-character content `"tiny"` is
accepted and fully retrievable. -/
theorem C4_no_content_validation_witness :
    ∃ db', DatabaseManager.add_book_with_content emptyDB "T" "A" "G" "tiny"
        = .ok (1, db')
      ∧ DatabaseManager.get_book_content db' 1 = some "tiny"
      ∧ DatabaseManager.book_exists db' "T" "A" = true
      ∧ db'.books.length = 1 :=
  C4_no_content_validation emptyDB "T" "A" "G" "tiny" rfl (by simp [emptyDB])

/-! ### C8: duplicate rejection in add_book -/

/-- C8: on a store where (title, author) is not yet present, `add_book`
succeeds returning the fresh id; a second call with the identical pair
raises the duplicate error (and, the connection closing without a commit,
no second row exists — the returned state still has one new row); and the
match is exact and case-sensitive: any pair differing in either component
is still accepted afterwards. -/
theorem C8_duplicate_rejection (db : DBState) (title author genre genre2 : String)
    (hdup : DatabaseManager.book_exists db title author = false) :
    ∃ db', DatabaseManager.add_book db title author genre = .ok (db.nextId, db')
      ∧ (∃ msg, DatabaseManager.add_book db' title author genre2 = .error msg)
      ∧ db'.books.length = db.books.length + 1
      ∧ (∀ title2 author2 genre3,
          DatabaseManager.book_exists db title2 author2 = false →
          title2 ≠ title ∨ author2 ≠ author →
          ∃ id db2, DatabaseManager.add_book db' title2 author2 genre3
            = .ok (id, db2)) := by
  refine ⟨{ db with
      books := db.books ++ [⟨db.nextId, title, author, genre⟩]
      nextId := db.nextId + 1 }, ?_, ?_, ?_, ?_⟩
  · unfold DatabaseManager.add_book
    simp [hdup]
  · refine ⟨"book already exists", ?_⟩
    unfold DatabaseManager.add_book DatabaseManager.book_exists
    simp
  · simp
  · intro title2 author2 genre3 h2 hne
    have hany : DatabaseManager.book_exists
        { db with
          books := db.books ++ [⟨db.nextId, title, author, genre⟩]
          nextId := db.nextId + 1 } title2 author2 = false := by
      unfold DatabaseManager.book_exists at h2 ⊢
      simp only [List.any_append, List.any_cons, List.any_nil, Bool.or_false]
      rw [h2]
      rcases hne with h | h
      · simp
        intro hh
        exact absurd hh.symm h
      · simp
        intro _ hh
        exact h hh.symm
    refine ⟨db.nextId + 1,
      { books := db.books ++ [⟨db.nextId, title, author, genre⟩]
          ++ [⟨db.nextId + 1, title2, author2, genre3⟩]
        contents := db.contents
        progress := db.progress
        nextId := db.nextId + 2 }, ?_⟩
    unfold DatabaseManager.add_book
    rw [hany]
    rfl

/-- Witness for C8: `("War", "Tolstoy")` is inserted once, rejected the
second time, while the case-variant `("war", "Tolstoy")` is still accepted
— the match is exact and case-sensitive. -/
theorem C8_duplicate_rejection_witness :
    ∃ db', DatabaseManager.add_book emptyDB "War" "Tolstoy" "Novel" = .ok (1, db')
      ∧ (∃ msg, DatabaseManager.add_book db' "War" "Tolstoy" "Epic" = .error msg)
      ∧ (∃ id db2, DatabaseManager.add_book db' "war" "Tolstoy" "Novel"
          = .ok (id, db2)) := by
  obtain ⟨db', h1, h2, h3, h4⟩ :=
    C8_duplicate_rejection emptyDB "War" "Tolstoy" "Novel" "Epic" rfl
  exact ⟨db', h1, h2, h4 "war" "Tolstoy" "Novel" rfl (Or.inl (by decide))⟩

/-! ### The shape of a successful get_book_page call -/

theorem get_book_page_spec (db : DBState) (b : Nat) (page : Int) (S : Nat)
    (c : String) (info : DatabaseManager.BookInfo)
    (hc : DatabaseManager.get_book_content db b = some c)
    (hi : DatabaseManager.get_book db b = some info)
    (hL : c.length ≠ 0) :
    ∃ r, DatabaseManager.get_book_page db b page S = some r
      ∧ r.page = (if page < 1 then 1
          else if page > ((max 1 ((c.length + S - 1) / S) : Nat) : Int) then
            max 1 ((c.length + S - 1) / S)
          else page.toNat)
      ∧ r.total_pages = max 1 ((c.length + S - 1) / S)
      ∧ r.end_char = min ((r.page - 1) * S + S) c.length
      ∧ r.content = strSlice c ((r.page - 1) * S) r.end_char
      ∧ r.start_char = (r.page - 1) * S + 1
      ∧ r.total_chars = c.length
      ∧ r.percentage = pyPercentage r.end_char c.length
      ∧ r.book_id = b ∧ r.title = info.title ∧ r.author = info.author := by
  unfold DatabaseManager.get_book_page
  rw [hc, hi]
  simp only [hL, if_false, reduceIte]
  exact ⟨_, rfl, rfl, rfl, rfl, rfl, rfl, rfl, rfl, rfl, rfl, rfl⟩

theorem total_pages_pos (L S : Nat) (hL : 0 < L) (hS : 0 < S) :
    1 ≤ (L + S - 1) / S := by
  rw [Nat.le_div_iff_mul_le hS]
  omega

theorem total_pages_ceil (L S : Nat) (hL : 0 < L) (hS : 0 < S) :
    L ≤ S * ((L + S - 1) / S) ∧ S * ((L + S - 1) / S - 1) < L := by
  have h1 : S * ((L + S - 1) / S) + (L + S - 1) % S = L + S - 1 :=
    Nat.div_add_mod (L + S - 1) S
  have h2 : (L + S - 1) % S < S := Nat.mod_lt _ hS
  have hq : 1 ≤ (L + S - 1) / S := total_pages_pos L S hL hS
  have h3 : S * ((L + S - 1) / S - 1) + S = S * ((L + S - 1) / S) := by
    rw [← Nat.mul_succ, Nat.succ_eq_add_one, Nat.sub_add_cancel hq]
  omega

/-- C1: for a stored book of content length `L > 0`, page size `S > 0` and
a requested page `p` in `[1, total_pages]`, `get_book_page` reports
`total_pages = ⌈L / S⌉` (computed as `(L + S - 1) / S`; the two bounding
conjuncts pin it as the ceiling) and returns exactly the character slice
`content[(p-1)*S : min((p-1)*S + S, L)]`. -/
theorem C1_get_book_page_slice (db : DBState) (b p S : Nat)
    (c : String) (info : DatabaseManager.BookInfo)
    (hc : DatabaseManager.get_book_content db b = some c)
    (hi : DatabaseManager.get_book db b = some info)
    (hL : 0 < c.length) (hS : 0 < S)
    (hp1 : 1 ≤ p) (hp2 : p ≤ (c.length + S - 1) / S) :
    ∃ r, DatabaseManager.get_book_page db b (p : Int) S = some r
      ∧ r.page = p
      ∧ r.total_pages = (c.length + S - 1) / S
      ∧ c.length ≤ S * r.total_pages
      ∧ S * (r.total_pages - 1) < c.length
      ∧ r.content = strSlice c ((p - 1) * S) (min ((p - 1) * S + S) c.length)
      ∧ r.start_char = (p - 1) * S + 1
      ∧ r.end_char = min ((p - 1) * S + S) c.length
      ∧ r.total_chars = c.length := by
  obtain ⟨r, hr, hpage, htp, hend, hcont, hstart, htc, _, _, _, _⟩ :=
    get_book_page_spec db b (p : Int) S c info hc hi (Nat.pos_iff_ne_zero.mp hL)
  have hmax : max 1 ((c.length + S - 1) / S) = (c.length + S - 1) / S :=
    max_eq_right (total_pages_pos c.length S hL hS)
  have hpp : r.page = p := by
    rw [hpage, hmax]
    rw [if_neg (by omega), if_neg (by omega)]
    omega
  refine ⟨r, hr, hpp, ?_, ?_, ?_, ?_, ?_, ?_, htc⟩
  · rw [htp, hmax]
  · rw [htp, hmax]
    exact (total_pages_ceil c.length S hL hS).1
  · rw [htp, hmax]
    exact (total_pages_ceil c.length S hL hS).2
  · rw [hcont, hend, hpp]
  · rw [hstart, hpp]
  · rw [hend, hpp]

/-- C5: out-of-range page numbers saturate instead of failing: with content
present (`L > 0`) and `S > 0`, `get_book_page` always returns a page (never
an error), any requested page `< 1` yields page 1, any requested page
`> total_pages` yields page `total_pages`, and the returned page number is
always within `[1, total_pages]`. -/
theorem C5_page_clamping (db : DBState) (b : Nat) (page : Int) (S : Nat)
    (c : String) (info : DatabaseManager.BookInfo)
    (hc : DatabaseManager.get_book_content db b = some c)
    (hi : DatabaseManager.get_book db b = some info)
    (hL : 0 < c.length) (hS : 0 < S) :
    ∃ r, DatabaseManager.get_book_page db b page S = some r
      ∧ (page < 1 → r.page = 1)
      ∧ (page > (((c.length + S - 1) / S : Nat) : Int) →
          r.page = (c.length + S - 1) / S)
      ∧ 1 ≤ r.page
      ∧ r.page ≤ (c.length + S - 1) / S := by
  obtain ⟨r, hr, hpage, _, _, _, _, _, _, _, _, _⟩ :=
    get_book_page_spec db b page S c info hc hi (Nat.pos_iff_ne_zero.mp hL)
  have htp1 : 1 ≤ (c.length + S - 1) / S := total_pages_pos c.length S hL hS
  have hmax : max 1 ((c.length + S - 1) / S) = (c.length + S - 1) / S :=
    max_eq_right htp1
  rw [hmax] at hpage
  refine ⟨r, hr, ?_, ?_, ?_, ?_⟩
  · intro h
    rw [hpage, if_pos h]
  · intro h
    rw [hpage, if_neg (by omega), if_pos h]
  · rw [hpage]
    split
    · omega
    split
    · omega
    · rename_i h1 h2
      omega
  · rw [hpage]
    split
    · omega
    split
    · omega
    · rename_i h1 h2
      omega

/-! ### Concrete sample books -/

/-- A 3700-character content string (the size used in the specification's
worked example). -/
def c1_content : String := String.mk (List.replicate 3700 'a')

theorem c1_content_length : c1_content.length = 3700 := by
  show (List.replicate 3700 'a').length = 3700
  rw [List.length_replicate]

/-- A fresh store holding the 3700-character book as id 1. -/
def c1_db : DBState :=
  match DatabaseManager.add_book_with_content emptyDB
      "Long Book" "Author" "Genre" c1_content with
  | .ok (_, db) => db
  | .error _ => emptyDB

/-- Witness for C1 at the specification's worked example: `L = 3700`,
`S = 1500` gives `total_pages = 3` and page 3 spans characters
`[3000, 3700)`. -/
theorem C1_get_book_page_slice_witness :
    ∃ r, DatabaseManager.get_book_page c1_db 1 (3 : Int) 1500 = some r
      ∧ r.page = 3 ∧ r.total_pages = 3
      ∧ r.start_char = 3001 ∧ r.end_char = 3700 ∧ r.total_chars = 3700
      ∧ r.content = strSlice c1_content 3000 3700 := by
  obtain ⟨r, hr, hp, htp, _, _, hcont, hstart, hend, htc⟩ :=
    C1_get_book_page_slice c1_db 1 3 1500 c1_content
      ⟨1, "Long Book", "Author", "Genre", true, c1_content.length,
        max 1 ((c1_content.length + 1499) / 1500)⟩
      rfl rfl (by rw [c1_content_length]; norm_num) (by norm_num)
      (by norm_num) (by rw [c1_content_length])
  rw [c1_content_length] at htp hend hcont
  norm_num [min_def] at htp hstart hend hcont
  rw [c1_content_length] at htc
  exact ⟨r, hr, hp, htp, hstart, hend, htc, hcont⟩

/-- The 26-character content used by the clamping witness. -/
def c5_content : String := "abcdefghijklmnopqrstuvwxyz"

/-- A fresh store holding the 26-character book as id 1. -/
def c5_db : DBState :=
  match DatabaseManager.add_book_with_content emptyDB
      "Alphabet" "Nobody" "Misc" c5_content with
  | .ok (_, db) => db
  | .error _ => emptyDB

/-- Witness for C5: with 26 characters and page size 10 (`total_pages = 3`),
requesting page 0 yields page 1 and requesting page 8 = 3 + 5 yields
page 3 — both succeed. -/
theorem C5_page_clamping_witness :
    (∃ r, DatabaseManager.get_book_page c5_db 1 (0 : Int) 10 = some r
      ∧ r.page = 1)
    ∧ (∃ r, DatabaseManager.get_book_page c5_db 1 (8 : Int) 10 = some r
      ∧ r.page = 3) := by
  obtain ⟨r0, h0, hlt, _, _, _⟩ :=
    C5_page_clamping c5_db 1 0 10 c5_content
      ⟨1, "Alphabet", "Nobody", "Misc", true, c5_content.length,
        max 1 ((c5_content.length + 1499) / 1500)⟩
      rfl rfl (by decide) (by decide)
  obtain ⟨r8, h8, _, hgt, _, _⟩ :=
    C5_page_clamping c5_db 1 8 10 c5_content
      ⟨1, "Alphabet", "Nobody", "Misc", true, c5_content.length,
        max 1 ((c5_content.length + 1499) / 1500)⟩
      rfl rfl (by decide) (by decide)
  refine ⟨⟨r0, h0, hlt (by decide)⟩, ⟨r8, h8, ?_⟩⟩
  have h3 := hgt (by decide)
  rw [h3]
  decide

/-! ### C3: the percentage field -/

/-- The percentage formula as the specification words it:
`round(end / L * 100, 1)`, i.e. rounding to one decimal place, modelled
over exact rationals.  This definition follows the spec's words (not the
code) and exists only to be compared against the implementation. -/
def spec_round1_percentage (endChar totalChars : Nat) : ℚ :=
  (round ((endChar : ℚ) / (totalChars : ℚ) * 100 * 10) : ℤ) / 10

/-- C3 (amended): the percentage returned by `get_book_page` is
`int((end / L) * 100)` evaluated in IEEE binary64 arithmetic
(`pyPercentage`), where `end = min((clamped p) · S, L)` — an integer
truncation, never the one-decimal `round(·, 1)` of the specification.
The binary64 value can even fall below the exact quotient: at `end = 29`,
`L = 100` the doubles give `(29/100)*100 = 28.999999999999996`, so the
code stores 28 where exact arithmetic gives `⌊29·100/100⌋ = 29`. -/
theorem C3_percentage_is_truncated_integer (db : DBState) (b : Nat)
    (page : Int) (S : Nat) (c : String) (info : DatabaseManager.BookInfo)
    (hc : DatabaseManager.get_book_content db b = some c)
    (hi : DatabaseManager.get_book db b = some info)
    (hL : 0 < c.length) (hS : 0 < S) :
    ∃ r, DatabaseManager.get_book_page db b page S = some r
      ∧ r.percentage = pyPercentage (min (r.page * S) c.length) c.length
      ∧ pyPercentage 29 100 = 28
      ∧ 29 * 100 / 100 = 29 := by
  obtain ⟨r, hr, hpage, _, hend, _, _, _, hpct, _, _, _⟩ :=
    get_book_page_spec db b page S c info hc hi (Nat.pos_iff_ne_zero.mp hL)
  have hpos : 1 ≤ r.page := by
    rw [hpage]
    split
    · omega
    · split
      · omega
      · omega
  have hmul : r.page * S = (r.page - 1) * S + S := by
    have h2 : r.page - 1 + 1 = r.page := Nat.sub_add_cancel hpos
    calc r.page * S = (r.page - 1 + 1) * S := by rw [h2]
      _ = (r.page - 1) * S + S := by rw [Nat.add_mul, one_mul]
  refine ⟨r, hr, ?_, by decide, by decide⟩
  rw [hpct, hend, hmul]

/-- C3 counterexample: at `L = 3700`, `S = 1500`, page 1, the code returns
`percentage = int(1500 / 3700 * 100) = 40`, while the specification's
`round(end / L * 100, 1)` is `40.5` — the stored value is truncated to an
integer and can never carry the decimal the claim promises. -/
theorem C3_percentage_counterexample :
    ∃ r, DatabaseManager.get_book_page c1_db 1 (1 : Int) 1500 = some r
      ∧ r.end_char = 1500 ∧ r.total_chars = 3700
      ∧ r.percentage = 40
      ∧ spec_round1_percentage 1500 3700 = 81 / 2
      ∧ (r.percentage : ℚ) ≠ spec_round1_percentage r.end_char r.total_chars := by
  have hfloor : ⌊(1500 : ℚ) / 3700 * 100 * 10 + 1 / 2⌋ = 405 := by
    rw [Int.floor_eq_iff] <;> norm_num
  have hspec : spec_round1_percentage 1500 3700 = 81 / 2 := by
    unfold spec_round1_percentage
    rw [round_eq]
    push_cast [hfloor]
    norm_num
  obtain ⟨r, hr, hpage, _, hend, _, _, htc, hpct, _, _, _⟩ :=
    get_book_page_spec c1_db 1 1 1500 c1_content
      ⟨1, "Long Book", "Author", "Genre", true, c1_content.length,
        max 1 ((c1_content.length + 1499) / 1500)⟩
      rfl rfl (by rw [c1_content_length]; norm_num)
  rw [c1_content_length] at hpage hend htc hpct
  have hp1 : r.page = 1 := by
    rw [hpage]
    decide
  rw [hp1] at hend
  norm_num [min_def] at hend
  rw [hend] at hpct
  rw [show pyPercentage 1500 3700 = 40 from by decide] at hpct
  refine ⟨r, hr, hend, htc, hpct, hspec, ?_⟩
  rw [hpct, hend, htc, hspec]
  norm_num

/-- Witness for C3's amended statement at a concrete input: the stored
percentage is the binary64 evaluation of `int((min(p·S, L) / L) * 100)`,
and the binary64 divergence from exact arithmetic (28 versus 29 at
`end = 29`, `L = 100`) is exhibited. -/
theorem C3_percentage_truncation_witness :
    ∃ r, DatabaseManager.get_book_page c1_db 1 (1 : Int) 1500 = some r
      ∧ r.percentage = pyPercentage (min (r.page * 1500) c1_content.length)
          c1_content.length
      ∧ pyPercentage 29 100 = 28
      ∧ 29 * 100 / 100 = 29 :=
  C3_percentage_is_truncated_integer c1_db 1 1 1500 c1_content
    ⟨1, "Long Book", "Author", "Genre", true, c1_content.length,
      max 1 ((c1_content.length + 1499) / 1500)⟩
    rfl rfl (by rw [c1_content_length]; norm_num) (by norm_num)

/-! ### C7: round-trip for non-empty content -/

/-- C7 (amended): for content of length `L > 0` accepted by
`add_book_with_content` (fresh (title, author), fresh id) and any page size
`S > 0`, `get_book_page(id, 1, S)` returns exactly the prefix of the
original content of length `min(S, L)`.  (For `L = 0` the content is also
accepted but `get_book_page` returns `None` — see the counterexample.) -/
theorem C7_roundtrip_prefix (db : DBState) (title author genre content : String)
    (S : Nat)
    (hdup : DatabaseManager.book_exists db title author = false)
    (hL : 0 < content.length) (hS : 0 < S)
    (hbooks : ∀ bk ∈ db.books, bk.id ≠ db.nextId)
    (hconts : ∀ r ∈ db.contents, r.book_id ≠ db.nextId) :
    ∃ db' r, DatabaseManager.add_book_with_content db title author genre content
        = .ok (db.nextId, db')
      ∧ DatabaseManager.get_book_page db' db.nextId (1 : Int) S = some r
      ∧ r.content = String.mk (content.data.take (min S content.length))
      ∧ r.content.length = min S content.length := by
  refine ⟨{ db with
      books := db.books ++ [⟨db.nextId, title, author, genre⟩]
      contents := db.contents ++
        [⟨db.nextId, content, content.length, max 1 ((content.length + 1499) / 1500)⟩]
      nextId := db.nextId + 1 }, ?_⟩
  have hgc : DatabaseManager.get_book_content
      { db with
        books := db.books ++ [⟨db.nextId, title, author, genre⟩]
        contents := db.contents ++
          [⟨db.nextId, content, content.length, max 1 ((content.length + 1499) / 1500)⟩]
        nextId := db.nextId + 1 } db.nextId = some content := by
    unfold DatabaseManager.get_book_content
    rw [find?_append_right]
    · simp
    · intro x hx
      simpa using hconts x hx
  have hgb : DatabaseManager.get_book
      { db with
        books := db.books ++ [⟨db.nextId, title, author, genre⟩]
        contents := db.contents ++
          [⟨db.nextId, content, content.length, max 1 ((content.length + 1499) / 1500)⟩]
        nextId := db.nextId + 1 } db.nextId
      = some ⟨db.nextId, title, author, genre, true, content.length,
          max 1 ((content.length + 1499) / 1500)⟩ := by
    unfold DatabaseManager.get_book
    rw [show ({ db with
        books := db.books ++ [⟨db.nextId, title, author, genre⟩]
        contents := db.contents ++
          [⟨db.nextId, content, content.length, max 1 ((content.length + 1499) / 1500)⟩]
        nextId := db.nextId + 1 } : DBState).books
      = db.books ++ [⟨db.nextId, title, author, genre⟩] from rfl]
    rw [find?_append_right _ _ _ (fun x hx => by simpa using hbooks x hx)]
    rw [show ({ db with
        books := db.books ++ [⟨db.nextId, title, author, genre⟩]
        contents := db.contents ++
          [⟨db.nextId, content, content.length, max 1 ((content.length + 1499) / 1500)⟩]
        nextId := db.nextId + 1 } : DBState).contents
      = db.contents ++
          [⟨db.nextId, content, content.length, max 1 ((content.length + 1499) / 1500)⟩]
      from rfl]
    rw [find?_append_right _ _ _ (fun x hx => by simpa using hconts x hx)]
    simp [List.find?]
  obtain ⟨r, hr, hpage, _, hend, hcont, _, _, _, _, _, _⟩ :=
    get_book_page_spec _ db.nextId 1 S content _ hgc hgb (Nat.pos_iff_ne_zero.mp hL)
  have hp1 : r.page = 1 := by
    rw [hpage, if_neg (by omega), if_neg (by omega)]
    rfl
  rw [hp1] at hend hcont
  norm_num at hend
  rw [hend] at hcont
  have hslice : strSlice content 0 (min S content.length)
      = String.mk (content.data.take (min S content.length)) := by
    unfold strSlice
    rw [List.drop_zero, Nat.sub_zero]
  have hcont' : r.content = String.mk (content.data.take (min S content.length)) := by
    rw [hcont]
    norm_num
    exact hslice
  refine ⟨r, ?_, hr, hcont', ?_⟩
  · unfold DatabaseManager.add_book_with_content
    simp [hdup]
  · rw [hcont']
    show (content.data.take (min S content.length)).length = min S content.length
    rw [List.length_take]
    have hdl : content.data.length = content.length := rfl
    omega

/-- Witness for C7: adding `"hello world."` (12 characters) and reading
page 1 with page size 5 returns the prefix `"hello"`. -/
theorem C7_roundtrip_prefix_witness :
    ∃ db' r, DatabaseManager.add_book_with_content emptyDB "T" "A" "G"
        "hello world." = .ok (1, db')
      ∧ DatabaseManager.get_book_page db' 1 (1 : Int) 5 = some r
      ∧ r.content = "hello" := by
  obtain ⟨db', r, h1, h2, h3, _⟩ :=
    C7_roundtrip_prefix emptyDB "T" "A" "G" "hello world." 5 rfl
      (by decide) (by decide) (by simp [emptyDB]) (by simp [emptyDB])
  refine ⟨db', r, h1, h2, ?_⟩
  rw [h3]
  decide

/-! ### C10: the User collection never holds an empty inner dictionary -/

theorem mem_aset {α : Type} {p : Nat × α} {l : PyDict α} {k : Nat} {v : α}
    (h : p ∈ aset l k v) : p = (k, v) ∨ (p ∈ l ∧ p.1 ≠ k) := by
  unfold aset at h
  split at h
  · obtain ⟨q, hq, hfq⟩ := List.mem_map.mp h
    by_cases hk : q.1 = k
    · left
      rw [← hfq, if_pos hk]
    · right
      rw [← hfq, if_neg hk]
      exact ⟨hq, hk⟩
  · rename_i hany
    rcases List.mem_append.mp h with h1 | h1
    · right
      refine ⟨h1, fun hk => hany ?_⟩
      exact List.any_eq_true.mpr ⟨p, h1, by simp [hk]⟩
    · left
      simpa using h1

theorem aset_ne_nil {α : Type} (l : PyDict α) (k : Nat) (v : α) :
    aset l k v ≠ [] := by
  unfold aset
  split
  · rename_i hany
    cases l with
    | nil => simp at hany
    | cons a t => simp
  · simp

theorem find?_aset_map {α : Type} (k : Nat) (v : α) :
    ∀ l : PyDict α, l.any (fun p => p.1 = k) = true →
      (l.map (fun p => if p.1 = k then (k, v) else p)).find?
        (fun p => p.1 = k) = some (k, v) := by
  intro l
  induction l with
  | nil =>
    intro h
    simp at h
  | cons a t ih =>
    intro h
    by_cases hk : a.1 = k
    · simp [List.find?_cons, hk]
    · have h' : t.any (fun p => p.1 = k) = true := by
        simpa [hk] using h
      simp only [List.map_cons, if_neg hk]
      simp [List.find?_cons, hk, ih h']

theorem alookup_aset_self {α : Type} (l : PyDict α) (k : Nat) (v : α) :
    alookup (aset l k v) k = some v := by
  unfold alookup aset
  split
  · rename_i hany
    rw [find?_aset_map k v l hany]
    rfl
  · rename_i hany
    rw [find?_append_right]
    · simp [List.find?]
    · intro x hx
      have hxk : ¬ (x.1 = k) :=
        fun hk => hany (List.any_eq_true.mpr ⟨x, hx, by simp [hk]⟩)
      simpa using hxk

/-- The invariant of the `User.user` dictionary: every present user maps to
a non-empty book dictionary. -/
def usersInv (st : UserState) : Prop := ∀ p ∈ st, p.2 ≠ []

theorem usersInv_add_book (st : UserState) (u b : Nat) (s : String)
    (h : usersInv st) : usersInv (User.add_book st u b s).2 := by
  unfold User.add_book
  split
  · exact h
  · cases halk : alookup st u with
    | some ub0 =>
      simp only [halk, Option.isSome_some, if_true, Option.getD_some]
      split
      · exact h
      · intro p hp
        rcases mem_aset hp with rfl | ⟨hpl, _⟩
        · exact aset_ne_nil _ _ _
        · exact h p hpl
    | none =>
      simp only [halk, Option.isSome_none, Bool.false_eq_true, if_false]
      rw [alookup_aset_self]
      simp only [Option.getD_some]
      have hnil : alookup ([] : PyDict BookEntry) b = none := rfl
      simp only [hnil, Option.isSome_none, Bool.false_eq_true, if_false]
      intro p hp
      rcases mem_aset hp with rfl | ⟨hpl, hpne⟩
      · show aset ([] : PyDict BookEntry) b ⟨s, none⟩ ≠ []
        exact aset_ne_nil _ _ _
      · rcases mem_aset hpl with rfl | ⟨hpl2, _⟩
        · exact absurd rfl hpne
        · exact h p hpl2

theorem usersInv_rate_book (st : UserState) (u b : Nat) (rating : Int)
    (h : usersInv st) : usersInv (User.rate_book st u b rating).2 := by
  unfold User.rate_book
  split
  · exact h
  · cases halk : alookup st u with
    | none => simp only [halk]; exact h
    | some ub =>
      simp only [halk]
      cases hbk : alookup ub b with
      | none => simp only [hbk]; exact h
      | some e =>
        simp only [hbk]
        intro p hp
        rcases mem_aset hp with rfl | ⟨hpl, _⟩
        · exact aset_ne_nil _ _ _
        · exact h p hpl

theorem usersInv_get_new_status (st : UserState) (u b : Nat) (s : String)
    (h : usersInv st) : usersInv (User.get_new_status st u b s).2 := by
  unfold User.get_new_status
  split
  · exact h
  · cases halk : alookup st u with
    | none => simp only [halk]; exact h
    | some ub =>
      simp only [halk]
      cases hbk : alookup ub b with
      | none => simp only [hbk]; exact h
      | some e =>
        simp only [hbk]
        intro p hp
        rcases mem_aset hp with rfl | ⟨hpl, _⟩
        · exact aset_ne_nil _ _ _
        · exact h p hpl

theorem usersInv_remove_book (st : UserState) (u b : Nat)
    (h : usersInv st) : usersInv (User.remove_book st u b).2 := by
  unfold User.remove_book
  cases halk : alookup st u with
  | none => simp only [halk]; exact h
  | some ub =>
    simp only [halk]
    split
    · exact h
    · split
      · intro p hp
        exact h p (List.mem_of_mem_filter hp)
      · rename_i hlen
        intro p hp
        rcases mem_aset hp with rfl | ⟨hpl, _⟩
        · exact fun hnil => hlen (by rw [show adel ub b = [] from hnil]; rfl)
        · exact h p hpl

theorem usersInv_clear_user_books (st : UserState) (u : Nat)
    (h : usersInv st) : usersInv (User.clear_user_books st u).2 := by
  unfold User.clear_user_books
  split
  · intro p hp
    exact h p (List.mem_of_mem_filter hp)
  · exact h

theorem usersInv_applyUserOp (st : UserState) (op : UserOp)
    (h : usersInv st) : usersInv (applyUserOp st op) := by
  cases op with
  | addBook u b s => exact usersInv_add_book st u b s h
  | rateBook u b r => exact usersInv_rate_book st u b r h
  | newStatus u b s => exact usersInv_get_new_status st u b s h
  | removeBook u b => exact usersInv_remove_book st u b h
  | clearBooks u => exact usersInv_clear_user_books st u h

theorem usersInv_foldl (ops : List UserOp) :
    ∀ st, usersInv st → usersInv (ops.foldl applyUserOp st) := by
  induction ops with
  | nil => exact fun st h => h
  | cons op t ih => exact fun st h => ih _ (usersInv_applyUserOp st op h)

/-- C10: in every state reachable from a fresh `User()` by any sequence of
`add_book`, `rate_book`, `get_new_status`, `remove_book` and
`clear_user_books` calls, every user entry present in the dictionary maps
to a non-empty book dictionary: removing or clearing the last book deletes
the user's entry, and no operation creates a user entry without a book. -/
theorem C10_user_entries_always_nonempty (ops : List UserOp) :
    ∀ p ∈ runUserOps ops, p.2 ≠ [] :=
  usersInv_foldl ops [] (fun p hp => absurd hp (List.not_mem_nil p))

/-- Witness for C10: after a single `add_book(1, 2, "reading")` the state
holds exactly the entry for user 1, whose book dictionary is non-empty. -/
theorem C10_user_entries_always_nonempty_witness :
    ((1, [(2, (⟨"reading", none⟩ : BookEntry))]) : Nat × PyDict BookEntry)
        ∈ runUserOps [UserOp.addBook 1 2 "reading"]
    ∧ ([(2, (⟨"reading", none⟩ : BookEntry))] : PyDict BookEntry) ≠ [] :=
  ⟨by decide,
   C10_user_entries_always_nonempty [UserOp.addBook 1 2 "reading"]
     (1, [(2, ⟨"reading", none⟩)]) (by decide)⟩
